import Mathlib

/-!
Shallow embedding of the montage backend (src/server.js) and verification of the
frozen claims about its job pipeline, duration parser, resolution mapping and clip
loop.  The pipeline `processMontage` is embedded as a function over an oracle of
external-effect outcomes; every write to the in-memory job registry becomes one
entry of an explicit trace of job snapshots.
-/

namespace Montage

/-- Lifecycle states a job record can carry (src/server.js lines 105, 133, 139, 202, 211). -/
inductive Status where
  | queued
  | processing
  | completed
  | failed
deriving DecidableEq

/-- The mutable fields of a job record written by the pipeline (src/server.js lines
102-109, 133-134, 139-140, 156, 174, 181, 189, 196, 202-206).  Timestamps are omitted
(no claim concerns them); progress is a JavaScript number, modelled as a rational. -/
structure Job where
  status : Status
  progress : ℚ
  error : Option String := none
  outputFile : Option String := none
  downloadUrl : Option String := none
deriving DecidableEq

/-- Request parameters destructured from the POST body (src/server.js lines 87-95).
Numeric fields are modelled as present rationals, optional string fields as Option. -/
structure RequestData where
  videoUrls : List String
  interval : ℚ
  montageLength : ℚ
  resolution : Option String := none
  overlayText : Option String := none
  fontSize : Option ℚ := none
  customFilename : Option String := none
deriving DecidableEq

/-- Oracle for the outcomes of the external effects the pipeline performs, indexed
where the pipeline repeats them: tool availability (commandExists), workspace
creation (fs.mkdtempSync, yielding the directory or throwing with a message), the
duration probe and the clip extraction per clip index, Math.random per clip index
(a rational in [0,1)), the manifest write (fs.writeFileSync) and the encoder run
(createMontage).  Error strings are the messages of the rejected errors. -/
structure Env where
  hasFFmpeg : Bool
  hasYtDlp : Bool
  mkdtemp : Except String String
  probe : ℕ → Except String String
  rand : ℕ → ℚ
  extract : ℕ → Except String Unit
  writeManifest : Except String Unit
  encode : Except String Unit

/-- Numeric value of a list of decimal digit characters. -/
def digitsVal (cs : List Char) : ℕ :=
  cs.foldl (fun n c => 10 * n + (c.toNat - 48)) 0

/-- Model of JavaScript Number(s) on the strings this pipeline feeds it: the empty
string is 0, a nonempty all-digit string is its decimal value, anything else is NaN
(modelled as none). -/
def jsNumberChars (cs : List Char) : Option ℕ :=
  if cs = [] then some 0
  else if cs.all Char.isDigit then some (digitsVal cs) else none

/-- Model of JavaScript parseInt(s) on such strings: the value of the longest digit
prefix, NaN (none) when the string has no digit prefix. -/
def jsParseIntChars (cs : List Char) : Option ℕ :=
  let ds := cs.takeWhile Char.isDigit
  if ds = [] then none else some (digitsVal ds)

/-- Split a character list at every occurrence of a separator, keeping empty pieces,
as JavaScript String.prototype.split does; the result is never empty. -/
def splitOnChar (sep : Char) : List Char → List (List Char)
  | [] => [[]]
  | a :: rest =>
    if a = sep then [] :: splitOnChar sep rest
    else
      match splitOnChar sep rest with
      | [] => [[a]]
      | h :: t => (a :: h) :: t

/-- parseDuration (src/server.js lines 217-225): split on a colon and map Number over
the parts; three parts combine as hours, minutes, seconds, two as minutes, seconds,
anything else falls back to parseInt of the whole string.  NaN anywhere in the
three- or two-part arithmetic yields NaN (none). -/
def parseDuration (s : String) : Option ℤ :=
  match (splitOnChar ':' s.toList).map jsNumberChars with
  | [some h, some m, some sec] => some ((h : ℤ) * 3600 + (m : ℤ) * 60 + (sec : ℤ))
  | [_, _, _] => none
  | [some m, some sec] => some ((m : ℤ) * 60 + (sec : ℤ))
  | [_, _] => none
  | _ => (jsParseIntChars s.toList).map Int.ofNat

/-- Own entries of the resolutionMap object literal (src/server.js lines 149-153);
the full JavaScript lookup, which also traverses the prototype chain, is
resolutionLookupJS below. -/
def resolutionMap (tag : String) : Option String :=
  if tag = "480p" then some "854x480"
  else if tag = "720p" then some "1280x720"
  else if tag = "1080p" then some "1920x1080"
  else none

/-- A value the lookup resolutionMap[tag] can produce: a string own-property value,
an inherited member of Object.prototype (a function, or for the key string
identifying the prototype accessor, an object — in either case not a string), or
undefined. -/
inductive JsValue where
  | str (s : String)
  | protoMember (name : String)
  | undef
deriving DecidableEq

/-- JavaScript truthiness of such a value: a string is truthy iff non-empty,
functions and objects are truthy, undefined is falsy. -/
def jsTruthy : JsValue → Bool
  | .str s => decide (s ≠ "")
  | .protoMember _ => true
  | .undef => false

/-- Property names a plain object literal inherits from Object.prototype
(ECMAScript 2023 §20.1.3 plus the Annex B legacy accessors, all present in Node):
looking any of these up on the literal finds the inherited member, not undefined. -/
def objectProtoProps : List String :=
  ["constructor", "hasOwnProperty", "isPrototypeOf", "propertyIsEnumerable",
   "toLocaleString", "toString", "valueOf", "__proto__",
   "__defineGetter__", "__defineSetter__", "__lookupGetter__", "__lookupSetter__"]

/-- The JavaScript property read resolutionMap[tag] (src/server.js line 154): an own
entry when the tag is one of the three keys, otherwise the inherited Object.prototype
member when the tag names one, otherwise undefined. -/
def resolutionLookupJS (tag : String) : JsValue :=
  match resolutionMap tag with
  | some s => JsValue.str s
  | none => if tag ∈ objectProtoProps then JsValue.protoMember tag else JsValue.undef

/-- Target resolution (src/server.js line 154): resolutionMap[data.resolution] ||
"1280x720".  An absent tag reads the key "undefined", which is neither an own entry
nor a prototype member, so it falls back; a truthy lookup result — including an
inherited prototype member — is kept as is. -/
def targetResolutionJS (tag : Option String) : JsValue :=
  let v := match tag with
    | none => JsValue.undef
    | some t => resolutionLookupJS t
  if jsTruthy v then v else JsValue.str "1280x720"

/-- Model of Math.floor(montageLength / interval) (src/server.js line 146) over
JavaScript numbers: none models the non-finite bound Infinity arising from x / 0
with x > 0; 0 / 0 gives NaN and x / 0 with x < 0 gives -Infinity, and a loop with a
NaN or -Infinity bound performs no iteration, so both are modelled as bound 0. -/
def clipsNeededJS (montageLength interval : ℚ) : Option ℤ :=
  if interval = 0 then (if 0 < montageLength then none else some 0)
  else some ⌊montageLength / interval⌋

/-- Guard of the clip loop (src/server.js line 161): i < clipsNeeded, where the
non-finite bound (none, i.e. Infinity) compares greater than every i. -/
def loopGuard (bound : Option ℤ) (i : ℕ) : Bool :=
  match bound with
  | some n => decide ((i : ℤ) < n)
  | none => true

/-- Model of path.join(a, b) for the plain components this server joins. -/
def pathJoin (a b : String) : String :=
  if a = "" then b else a ++ "/" ++ b

/-- Left-pad a string with zeros to length 2, as String(i).padStart(2, "0"). -/
def padStart2 (s : String) : String :=
  if 2 ≤ s.length then s else String.mk (List.replicate (2 - s.length) '0') ++ s

/-- Clip file name for 0-based clip index i (src/server.js line 170). -/
def clipFileName (i : ℕ) : String :=
  "clip_" ++ padStart2 (Nat.repr (i + 1)) ++ ".mp4"

/-- Output base name (src/server.js line 145): customFilename when present and truthy
(the empty string is falsy in JavaScript), else "montage". -/
def scriptName (data : RequestData) : String :=
  match data.customFilename with
  | some s => if s = "" then "montage" else s
  | none => "montage"

/-- Effective overlay text (src/server.js line 59): applied only when present and
truthy, so an empty overlay string behaves like no overlay. -/
def effOverlayText (data : RequestData) : Option String :=
  match data.overlayText with
  | some t => if t = "" then none else some t
  | none => none

/-- Effective font size (src/server.js line 194): data.fontSize || 48, so an absent
or zero (falsy) font size falls back to 48. -/
def effFontSize (data : RequestData) : ℚ :=
  match data.fontSize with
  | some f => if f = 0 then 48 else f
  | none => 48

/-- Start offset choice (src/server.js line 168): Math.floor(Math.random() * maxStart)
for a random draw r in [0,1). -/
def startTimeJS (r maxStart : ℚ) : ℤ := ⌊r * maxStart⌋

/-- External-tool invocations the pipeline issues, with the arguments the source
interpolates into each command line. -/
inductive Call where
  | probe (url : String)
  | extract (url : String) (start : Option ℤ) (dur : ℚ) (dest : String)
  | encode (manifest : String) (dest : String) (resolution : JsValue)
      (overlay : Option String) (fontSize : ℚ)
deriving DecidableEq

/-- Whether clip i is acquired: its duration probe and its extraction both succeed
(src/server.js lines 164-178; a probe failure means the extraction never runs). -/
def attemptOk (env : Env) (i : ℕ) : Bool :=
  (match env.probe i with | .ok _ => true | .error _ => false) &&
  (match env.extract i with | .ok _ => true | .error _ => false)

/-- Start offset passed to the extraction of clip i (src/server.js lines 165-168):
none when the probe failed (no extraction happens) or when duration parsing gave NaN
(the command is still issued, with a NaN start). -/
def attemptStart (data : RequestData) (env : Env) (i : ℕ) : Option ℤ :=
  match env.probe i with
  | .error _ => none
  | .ok ds => (parseDuration ds).map fun d =>
      startTimeJS (env.rand i) (max 0 ((d : ℚ) - data.interval))

/-- External-tool calls issued while attempting clip i (src/server.js lines 161-179):
a duration probe of the first request URL and, when the probe succeeded, an
extraction of interval seconds at the chosen start into the clip file. -/
def attemptCalls (data : RequestData) (env : Env) (ws : String) (i : ℕ) : List Call :=
  match env.probe i with
  | .error _ => [Call.probe data.videoUrls.headI]
  | .ok _ => [Call.probe data.videoUrls.headI,
      Call.extract data.videoUrls.headI (attemptStart data env i) data.interval
        (pathJoin ws (clipFileName i))]

/-- Job snapshot stored when the job is created (src/server.js lines 102-111). -/
def initJob : Job := { status := .queued, progress := 0 }

/-- Fixed message stored when a required tool is missing (src/server.js line 134). -/
def depFailMsg : String := "Missing dependencies: FFmpeg and yt-dlp are required"

/-- Job snapshot after the dependency check fails (src/server.js lines 132-136). -/
def depFailedJob : Job := { status := .failed, progress := 0, error := some depFailMsg }

/-- In-flight job snapshot at a given progress value. -/
def procJob (p : ℚ) : Job := { status := .processing, progress := p }

/-- Job snapshot written by the catch handler (src/server.js lines 209-214): status
failed, the thrown message verbatim, progress untouched at p. -/
def failedJob (p : ℚ) (e : String) : Job :=
  { status := .failed, progress := p, error := some e }

/-- Terminal snapshot of a successful job (src/server.js lines 199-207). -/
def doneJob (jobId ws : String) (data : RequestData) : Job :=
  { status := .completed, progress := 100,
    outputFile := some (pathJoin ws (scriptName data ++ "_v01.mp4")),
    downloadUrl := some ("/api/download/" ++ jobId) }

/-- Snapshots stored during the clip loop: one per successful clip i, with progress
20 + (i / clipsNeeded) * 40 (src/server.js lines 161-179); failed clips store
nothing. -/
def loopSnaps (env : Env) (q : ℤ) : List Job :=
  (List.range q.toNat).filterMap fun i =>
    if attemptOk env i then some (procJob (20 + ((i : ℚ) / (q : ℚ)) * 40)) else none

/-- Clip files accumulated by the loop (src/server.js line 172): exactly the files of
the successful clips, in index order. -/
def loopClips (env : Env) (ws : String) (q : ℤ) : List String :=
  (List.range q.toNat).filterMap fun i =>
    if attemptOk env i then some (pathJoin ws (clipFileName i)) else none

/-- All tool calls issued by the clip loop, in order. -/
def loopCalls (data : RequestData) (env : Env) (ws : String) (q : ℤ) : List Call :=
  ((List.range q.toNat).map (attemptCalls data env ws)).flatten

/-- Single quote character, used when quoting clip paths in the manifest. -/
def sq : String := String.singleton (Char.ofNat 39)

/-- Concatenation manifest content (src/server.js line 186). -/
def manifestText (clips : List String) : String :=
  String.intercalate "\n" (clips.map fun c => "file " ++ sq ++ c ++ sq)

/-- The single encoder invocation (src/server.js lines 185, 193-194). -/
def encodeCall (data : RequestData) (ws : String) : Call :=
  .encode (pathJoin ws "clip_list.txt") (pathJoin ws (scriptName data ++ "_v01.mp4"))
    (targetResolutionJS data.resolution) (effOverlayText data) (effFontSize data)

/-- Everything observable about one terminated pipeline run: the sequence of job
states stored in the registry (in store order), the final state, the clip files
acquired, the tool calls issued, and the manifest content handed to the write. -/
structure RunResult where
  trace : List Job
  final : Job
  clips : List String
  calls : List Call
  manifestContent : Option String
deriving DecidableEq

/-- Run result when a dependency is missing (src/server.js lines 128-137). -/
def resDepFail : RunResult :=
  { trace := [initJob, depFailedJob], final := depFailedJob, clips := [], calls := [],
    manifestContent := none }

/-- Run result when workspace creation throws (src/server.js lines 144, 209-214). -/
def resMkFail (e : String) : RunResult :=
  { trace := [initJob, procJob 10, failedJob 10 e], final := failedJob 10 e,
    clips := [], calls := [], manifestContent := none }

/-- Registry states stored from creation up to the progress-60 store after the clip
loop (src/server.js lines 111, 139-141, 156-157, 161-182). -/
def preTrace (env : Env) (q : ℤ) : List Job :=
  [initJob, procJob 10, procJob 20] ++ loopSnaps env q ++ [procJob 60]

/-- Run result when the manifest write throws (src/server.js lines 187, 209-214). -/
def resWriteFail (data : RequestData) (env : Env) (ws : String) (q : ℤ) (e : String) :
    RunResult :=
  { trace := preTrace env q ++ [failedJob 60 e], final := failedJob 60 e,
    clips := loopClips env ws q, calls := loopCalls data env ws q,
    manifestContent := some (manifestText (loopClips env ws q)) }

/-- Run result when the encoder fails (src/server.js lines 194, 209-214). -/
def resEncFail (data : RequestData) (env : Env) (ws : String) (q : ℤ) (e : String) :
    RunResult :=
  { trace := preTrace env q ++ [procJob 70, failedJob 70 e], final := failedJob 70 e,
    clips := loopClips env ws q,
    calls := loopCalls data env ws q ++ [encodeCall data ws],
    manifestContent := some (manifestText (loopClips env ws q)) }

/-- Run result of a fully successful pipeline (src/server.js lines 189-207). -/
def resDone (jobId : String) (data : RequestData) (env : Env) (ws : String) (q : ℤ) :
    RunResult :=
  { trace := preTrace env q ++ [procJob 70, procJob 90, doneJob jobId ws data],
    final := doneJob jobId ws data,
    clips := loopClips env ws q,
    calls := loopCalls data env ws q ++ [encodeCall data ws],
    manifestContent := some (manifestText (loopClips env ws q)) }

/-- processMontage (src/server.js lines 123-215) run to rest against the effect
oracle env.  Returns none exactly when the clip loop has the non-finite bound
(interval 0 with positive montageLength) and therefore never terminates; otherwise
some of the full observable run. -/
def runFinite (jobId : String) (data : RequestData) (env : Env) : Option RunResult :=
  if env.hasFFmpeg && env.hasYtDlp then
    match env.mkdtemp with
    | .error e => some (resMkFail e)
    | .ok ws =>
      match clipsNeededJS data.montageLength data.interval with
      | none => none
      | some q =>
        match env.writeManifest with
        | .error e => some (resWriteFail data env ws q e)
        | .ok _ =>
          match env.encode with
          | .error e => some (resEncFail data env ws q e)
          | .ok _ => some (resDone jobId data env ws q)
  else some resDepFail

/-- URLs handed to the duration probe, one per attempted clip. -/
def probeUrls (cs : List Call) : List String :=
  cs.filterMap fun c => match c with | Call.probe u => some u | _ => none

/-- URLs handed to the clip extraction. -/
def extractUrls (cs : List Call) : List String :=
  cs.filterMap fun c => match c with | Call.extract u _ _ _ => some u | _ => none

/-- Exhaustive case analysis of a terminated pipeline run: exactly one of the five
terminal shapes, determined by the dependency check, workspace creation, manifest
write and encode outcomes. -/
theorem runFinite_cases {jobId : String} {data : RequestData} {env : Env}
    {res : RunResult} (h : runFinite jobId data env = some res) :
    ((env.hasFFmpeg && env.hasYtDlp) = false ∧ res = resDepFail) ∨
    ((env.hasFFmpeg && env.hasYtDlp) = true ∧
      ((∃ e, env.mkdtemp = Except.error e ∧ res = resMkFail e) ∨
       ∃ ws q, env.mkdtemp = Except.ok ws ∧
         clipsNeededJS data.montageLength data.interval = some q ∧
         ((∃ e, env.writeManifest = Except.error e ∧ res = resWriteFail data env ws q e) ∨
          (env.writeManifest = Except.ok () ∧
            ((∃ e, env.encode = Except.error e ∧ res = resEncFail data env ws q e) ∨
             (env.encode = Except.ok () ∧ res = resDone jobId data env ws q)))))) := by
  unfold runFinite at h
  by_cases hd : (env.hasFFmpeg && env.hasYtDlp) = true
  · rw [if_pos hd] at h
    refine Or.inr ⟨hd, ?_⟩
    cases hmk : env.mkdtemp with
    | error e =>
      rw [hmk] at h
      exact Or.inl ⟨e, rfl, (Option.some.inj h).symm⟩
    | ok ws =>
      rw [hmk] at h
      cases hcn : clipsNeededJS data.montageLength data.interval with
      | none => rw [hcn] at h; exact Option.noConfusion h
      | some q =>
        rw [hcn] at h
        refine Or.inr ⟨ws, q, rfl, rfl, ?_⟩
        cases hwm : env.writeManifest with
        | error e =>
          rw [hwm] at h
          exact Or.inl ⟨e, rfl, (Option.some.inj h).symm⟩
        | ok u =>
          rw [hwm] at h
          refine Or.inr ⟨hwm ▸ rfl, ?_⟩
          cases hen : env.encode with
          | error e =>
            rw [hen] at h
            exact Or.inl ⟨e, rfl, (Option.some.inj h).symm⟩
          | ok v =>
            rw [hen] at h
            exact Or.inr ⟨hen ▸ rfl, (Option.some.inj h).symm⟩
  · rw [if_neg hd] at h
    exact Or.inl ⟨Bool.not_eq_true _ ▸ Bool.of_not_eq_true hd, (Option.some.inj h).symm⟩

/-- Membership in the loop snapshots: exactly the successful clip indices, each
recording the mid-loop progress value. -/
theorem mem_loopSnaps {env : Env} {q : ℤ} {j : Job} :
    j ∈ loopSnaps env q ↔ ∃ i : ℕ, i < q.toNat ∧ attemptOk env i = true ∧
      j = procJob (20 + ((i : ℚ) / (q : ℚ)) * 40) := by
  simp only [loopSnaps, List.mem_filterMap, List.mem_range]
  constructor
  · rintro ⟨i, hi, hsome⟩
    by_cases hok : attemptOk env i = true
    · rw [if_pos hok] at hsome
      exact ⟨i, hi, hok, (Option.some.inj hsome).symm⟩
    · rw [if_neg hok] at hsome
      exact Option.noConfusion hsome
  · rintro ⟨i, hi, hok, rfl⟩
    exact ⟨i, hi, by rw [if_pos hok]⟩

/-- The mid-loop progress value for clip i of q sits in [20, 60). -/
theorem loopProgress_bounds {q : ℤ} {i : ℕ} (hi : i < q.toNat) :
    20 ≤ 20 + ((i : ℚ) / (q : ℚ)) * 40 ∧ 20 + ((i : ℚ) / (q : ℚ)) * 40 < 60 := by
  have hq : (0 : ℤ) < q := by omega
  have hq' : (0 : ℚ) < (q : ℚ) := by exact_mod_cast hq
  have hiq : (i : ℚ) < (q : ℚ) := by exact_mod_cast (by omega : (i : ℤ) < q)
  have h0 : 0 ≤ (i : ℚ) / (q : ℚ) := div_nonneg (by positivity) hq'.le
  have h1 : (i : ℚ) / (q : ℚ) < 1 := (div_lt_one hq').mpr hiq
  constructor
  · nlinarith
  · nlinarith

/-- Progress values recorded by the loop are sorted: later successful clips record
larger progress. -/
theorem loopSnaps_sorted (env : Env) (q : ℤ) :
    ((loopSnaps env q).map Job.progress).Sorted (· ≤ ·) := by
  unfold loopSnaps
  rw [List.map_filterMap]
  refine List.pairwise_filterMap.mpr ?_
  refine (List.pairwise_lt_range q.toNat).imp_of_mem ?_
  intro a b ha hb hab x hx y hy
  by_cases hoa : attemptOk env a = true
  · rw [if_pos hoa] at hx
    by_cases hob : attemptOk env b = true
    · rw [if_pos hob] at hy
      simp only [Option.map_some', Option.mem_def, Option.some.injEq] at hx hy
      subst hx; subst hy
      have hq : (0 : ℤ) < q := by
        have := List.mem_range.mp hb
        omega
      have hq' : (0 : ℚ) < (q : ℚ) := by exact_mod_cast hq
      have : (a : ℚ) / (q : ℚ) ≤ (b : ℚ) / (q : ℚ) :=
        (div_le_div_iff_of_pos_right hq').mpr (by exact_mod_cast hab.le)
      simp only [procJob]
      linarith
    · rw [if_neg hob] at hy
      simp at hy
  · rw [if_neg hoa] at hx
    simp at hx

/-- Every element of the pre-manifest part of the trace. -/
theorem mem_preTrace {env : Env} {q : ℤ} {j : Job} (hj : j ∈ preTrace env q) :
    j = initJob ∨ j = procJob 10 ∨ j = procJob 20 ∨ j ∈ loopSnaps env q ∨
      j = procJob 60 := by
  simp only [preTrace, List.mem_append, List.mem_cons, List.mem_singleton,
    List.not_mem_nil, or_false] at hj
  tauto

/-- Facts shared by every pre-manifest trace element: the status is queued or
processing, progress sits in [0, 60], and no error or output field is set. -/
theorem preTrace_elem {env : Env} {q : ℤ} {j : Job} (hj : j ∈ preTrace env q) :
    (j.status = Status.queued ∨ j.status = Status.processing) ∧
    0 ≤ j.progress ∧ j.progress ≤ 60 ∧ j.error = none ∧ j.outputFile = none := by
  rcases mem_preTrace hj with rfl | rfl | rfl | hm | rfl
  · exact ⟨Or.inl rfl, by norm_num [initJob]⟩
  · exact ⟨Or.inr rfl, by norm_num [procJob]⟩
  · exact ⟨Or.inr rfl, by norm_num [procJob]⟩
  · rcases mem_loopSnaps.mp hm with ⟨i, hi, _, rfl⟩
    have hb := loopProgress_bounds (q := q) hi
    refine ⟨Or.inr rfl, ?_, ?_, rfl, rfl⟩
    · simp only [procJob]; linarith [hb.1]
    · simp only [procJob]; linarith [hb.2]
  · exact ⟨Or.inr rfl, by norm_num [procJob]⟩

/-- Appending a sorted tail of progress at least 60 to the pre-manifest trace keeps
the mapped progress sorted. -/
theorem sorted_preTrace_append (env : Env) (q : ℤ) (tail : List Job)
    (hts : (tail.map Job.progress).Sorted (· ≤ ·))
    (h60 : ∀ j ∈ tail, 60 ≤ j.progress) :
    ((preTrace env q ++ tail).map Job.progress).Sorted (· ≤ ·) := by
  have hsnaps := loopSnaps_sorted env q
  have hsb : ∀ x ∈ (loopSnaps env q).map Job.progress, 20 ≤ x ∧ x < 60 := by
    intro x hx
    rcases List.mem_map.mp hx with ⟨j, hj, rfl⟩
    rcases mem_loopSnaps.mp hj with ⟨i, hi, _, rfl⟩
    simpa [procJob] using loopProgress_bounds (q := q) hi
  have htb : ∀ y ∈ tail.map Job.progress, 60 ≤ y := by
    intro y hy
    rcases List.mem_map.mp hy with ⟨j, hj, rfl⟩
    exact h60 j hj
  have h3 : ([initJob, procJob 10, procJob 20].map Job.progress) = [0, 10, 20] := by
    simp [initJob, procJob]
  simp only [preTrace, List.append_assoc, List.map_append]
  refine List.pairwise_append.mpr ⟨?_, ?_, ?_⟩
  · rw [h3]
    norm_num [List.sorted_cons]
  · refine List.pairwise_append.mpr ⟨hsnaps, ?_, ?_⟩
    · refine List.pairwise_append.mpr ⟨?_, hts, ?_⟩
      · simp
      · intro x hx y hy
        simp only [List.map_cons, List.map_nil, List.mem_singleton, procJob] at hx
        subst hx
        exact htb y hy
    · intro x hx y hy
      have h1 := (hsb x hx).2
      rcases List.mem_append.mp hy with hy | hy
      · simp only [List.map_cons, List.map_nil, List.mem_singleton, procJob] at hy
        subst hy
        linarith
      · have := htb y hy
        linarith
  · intro x hx y hy
    rw [h3] at hx
    have hx3 : x ≤ 20 := by
      simp only [List.mem_cons, List.not_mem_nil, or_false] at hx
      rcases hx with rfl | rfl | rfl <;> norm_num
    rcases List.mem_append.mp hy with hy | hy
    · have := (hsb y hy).1
      linarith
    · rcases List.mem_append.mp hy with hy | hy
      · simp only [List.map_cons, List.map_nil, List.mem_singleton, procJob] at hy
        subst hy
        linarith
      · have := htb y hy
        linarith

/-- C5: if either required tool is unavailable, the job goes straight from queued to
failed with the fixed dependency message, progress stays 0, and the processing state
is never entered. -/
theorem missing_deps_fail_from_queued (jobId : String) (data : RequestData) (env : Env)
    (h : env.hasFFmpeg = false ∨ env.hasYtDlp = false) :
    runFinite jobId data env = some resDepFail ∧
    resDepFail.final.status = Status.failed ∧
    resDepFail.final.error = some depFailMsg ∧
    resDepFail.final.progress = 0 ∧
    resDepFail.trace = [initJob, depFailedJob] ∧
    initJob.status = Status.queued ∧
    ∀ j ∈ resDepFail.trace, j.status ≠ Status.processing := by
  have hb : (env.hasFFmpeg && env.hasYtDlp) = false := by
    rcases h with h | h <;> simp [h]
  refine ⟨?_, rfl, rfl, rfl, rfl, rfl, ?_⟩
  · unfold runFinite
    rw [if_neg (by simp [hb])]
  · intro j hj
    simp only [resDepFail, List.mem_cons, List.mem_singleton, List.not_mem_nil] at hj
    rcases hj with rfl | rfl | h'
    · exact fun hc => Status.noConfusion hc
    · exact fun hc => Status.noConfusion hc
    · exact absurd h' (by simp)

/-- The output artifact path recorded on completion is never the empty string. -/
theorem outName_ne_empty (data : RequestData) (ws : String) :
    pathJoin ws (scriptName data ++ "_v01.mp4") ≠ "" := by
  have h8 : ("_v01.mp4" : String).length = 8 := rfl
  have h0 : ("" : String).length = 0 := rfl
  have hb : (scriptName data ++ "_v01.mp4") ≠ "" := by
    intro hc
    have hlen := congrArg String.length hc
    rw [String.length_append, h8, h0] at hlen
    omega
  unfold pathJoin
  split
  · exact hb
  · intro hc
    have hlen := congrArg String.length hc
    rw [String.length_append, String.length_append, h0] at hlen
    have h1 : ("/" : String).length = 1 := rfl
    rw [h1] at hlen
    omega

/-- C1 (amended): over the stored sequence of job states, progress is a rational
percentage within [0, 100], non-decreasing in store order (whether or not the job
fails), and equals 100 exactly in the completed state.  It is not always an integer:
mid-loop values have the form 20 + 40i/clipsNeeded. -/
theorem progress_monotone_bounds_completed (jobId : String) (data : RequestData)
    (env : Env) (res : RunResult) (h : runFinite jobId data env = some res) :
    (res.trace.map Job.progress).Sorted (· ≤ ·) ∧
    ∀ j ∈ res.trace, 0 ≤ j.progress ∧ j.progress ≤ 100 ∧
      (j.progress = 100 ↔ j.status = Status.completed) := by
  have hpre : ∀ {q : ℤ} (j : Job), j ∈ preTrace env q →
      0 ≤ j.progress ∧ j.progress ≤ 100 ∧
        (j.progress = 100 ↔ j.status = Status.completed) := by
    intro q j hj
    obtain ⟨hst, h0, h60, _, _⟩ := preTrace_elem hj
    refine ⟨h0, by linarith, ?_, ?_⟩
    · intro hp
      exfalso
      rw [hp] at h60
      linarith
    · intro hc
      exfalso
      rcases hst with h' | h' <;> rw [hc] at h' <;> exact Status.noConfusion h'
  rcases runFinite_cases h with ⟨_, rfl⟩ | ⟨_, hb⟩
  · constructor
    · norm_num [resDepFail, initJob, depFailedJob, List.sorted_cons]
    · intro j hj
      simp only [resDepFail, List.mem_cons, List.not_mem_nil, or_false] at hj
      rcases hj with rfl | rfl
      · norm_num [initJob] <;> decide
      · norm_num [depFailedJob] <;> decide
  · rcases hb with ⟨e, hmk, rfl⟩ | ⟨ws, q, hmk, hcn, hb2⟩
    · constructor
      · norm_num [resMkFail, initJob, procJob, failedJob, List.sorted_cons]
      · intro j hj
        simp only [resMkFail, List.mem_cons, List.not_mem_nil, or_false] at hj
        rcases hj with rfl | rfl | rfl
        · norm_num [initJob] <;> decide
        · norm_num [procJob] <;> decide
        · norm_num [failedJob] <;> decide
    · rcases hb2 with ⟨e, hwm, rfl⟩ | ⟨hwm, hb3⟩
      · constructor
        · refine sorted_preTrace_append env q [failedJob 60 e] (by simp) ?_
          intro j hj
          simp only [List.mem_singleton] at hj
          subst hj
          norm_num [failedJob]
        · intro j hj
          simp only [resWriteFail, List.mem_append, List.mem_singleton] at hj
          rcases hj with hj | rfl
          · exact hpre j hj
          · norm_num [failedJob] <;> decide
      · rcases hb3 with ⟨e, hen, rfl⟩ | ⟨hen, rfl⟩
        · constructor
          · refine sorted_preTrace_append env q [procJob 70, failedJob 70 e] ?_ ?_
            · norm_num [procJob, failedJob, List.sorted_cons]
            · intro j hj
              simp only [List.mem_cons, List.not_mem_nil, or_false] at hj
              rcases hj with rfl | rfl <;> norm_num [procJob, failedJob]
          · intro j hj
            simp only [resEncFail, List.mem_append, List.mem_cons,
              List.not_mem_nil, or_false] at hj
            rcases hj with hj | rfl | rfl
            · exact hpre j hj
            · norm_num [procJob] <;> decide
            · norm_num [failedJob] <;> decide
        · constructor
          · refine sorted_preTrace_append env q
              [procJob 70, procJob 90, doneJob jobId ws data] ?_ ?_
            · norm_num [procJob, doneJob, List.sorted_cons]
            · intro j hj
              simp only [List.mem_cons, List.not_mem_nil, or_false] at hj
              rcases hj with rfl | rfl | rfl <;> norm_num [procJob, doneJob]
          · intro j hj
            simp only [resDone, List.mem_append, List.mem_cons,
              List.not_mem_nil, or_false] at hj
            rcases hj with hj | rfl | rfl | rfl
            · exact hpre j hj
            · norm_num [procJob] <;> decide
            · norm_num [procJob] <;> decide
            · norm_num [doneJob] <;> decide

/-- C2: in every stored job state, a non-empty error message is present exactly in
the failed state, and a non-empty output artifact path is present exactly in the
completed state — given that the messages of the environment's thrown errors are
non-empty, as Node's fs and child_process errors are. -/
theorem error_outputFile_iff_status (jobId : String) (data : RequestData) (env : Env)
    (res : RunResult) (h : runFinite jobId data env = some res)
    (hm : ∀ e, env.mkdtemp = Except.error e → e ≠ "")
    (hw : ∀ e, env.writeManifest = Except.error e → e ≠ "")
    (he : ∀ e, env.encode = Except.error e → e ≠ "") :
    ∀ j ∈ res.trace,
      ((∃ s, j.error = some s ∧ s ≠ "") ↔ j.status = Status.failed) ∧
      ((∃ f, j.outputFile = some f ∧ f ≠ "") ↔ j.status = Status.completed) := by
  have hpre : ∀ {q : ℤ} (j : Job), j ∈ preTrace env q →
      ((∃ s, j.error = some s ∧ s ≠ "") ↔ j.status = Status.failed) ∧
      ((∃ f, j.outputFile = some f ∧ f ≠ "") ↔ j.status = Status.completed) := by
    intro q j hj
    obtain ⟨hst, _, _, herr, hout⟩ := preTrace_elem hj
    constructor
    · constructor
      · rintro ⟨s, hs, _⟩
        rw [herr] at hs
        exact Option.noConfusion hs
      · intro hf
        exfalso
        rcases hst with h' | h' <;> rw [hf] at h' <;> exact Status.noConfusion h'
    · constructor
      · rintro ⟨f, hf, _⟩
        rw [hout] at hf
        exact Option.noConfusion hf
      · intro hf
        exfalso
        rcases hst with h' | h' <;> rw [hf] at h' <;> exact Status.noConfusion h'
  have hfail : ∀ (p : ℚ) (e : String), e ≠ "" →
      ((∃ s, (failedJob p e).error = some s ∧ s ≠ "") ↔
        (failedJob p e).status = Status.failed) ∧
      ((∃ f, (failedJob p e).outputFile = some f ∧ f ≠ "") ↔
        (failedJob p e).status = Status.completed) := by
    intro p e hne
    constructor
    · exact ⟨fun _ => rfl, fun _ => ⟨e, rfl, hne⟩⟩
    · constructor
      · rintro ⟨f, hf, _⟩
        exact Option.noConfusion hf
      · intro hc
        exact Status.noConfusion hc
  have hinit :
      ((∃ s, initJob.error = some s ∧ s ≠ "") ↔ initJob.status = Status.failed) ∧
      ((∃ f, initJob.outputFile = some f ∧ f ≠ "") ↔
        initJob.status = Status.completed) := by
    constructor
    · constructor
      · rintro ⟨s, hs, _⟩
        exact Option.noConfusion hs
      · intro hc
        exact Status.noConfusion hc
    · constructor
      · rintro ⟨f, hf, _⟩
        exact Option.noConfusion hf
      · intro hc
        exact Status.noConfusion hc
  have hproc : ∀ p : ℚ,
      ((∃ s, (procJob p).error = some s ∧ s ≠ "") ↔
        (procJob p).status = Status.failed) ∧
      ((∃ f, (procJob p).outputFile = some f ∧ f ≠ "") ↔
        (procJob p).status = Status.completed) := by
    intro p
    constructor
    · constructor
      · rintro ⟨s, hs, _⟩
        exact Option.noConfusion hs
      · intro hc
        exact Status.noConfusion hc
    · constructor
      · rintro ⟨f, hf, _⟩
        exact Option.noConfusion hf
      · intro hc
        exact Status.noConfusion hc
  have hdone : ∀ ws : String,
      ((∃ s, (doneJob jobId ws data).error = some s ∧ s ≠ "") ↔
        (doneJob jobId ws data).status = Status.failed) ∧
      ((∃ f, (doneJob jobId ws data).outputFile = some f ∧ f ≠ "") ↔
        (doneJob jobId ws data).status = Status.completed) := by
    intro ws
    constructor
    · constructor
      · rintro ⟨s, hs, _⟩
        exact Option.noConfusion hs
      · intro hc
        exact Status.noConfusion hc
    · exact ⟨fun _ => rfl,
        fun _ => ⟨pathJoin ws (scriptName data ++ "_v01.mp4"), rfl, outName_ne_empty data ws⟩⟩
  rcases runFinite_cases h with ⟨_, rfl⟩ | ⟨_, hb⟩
  · intro j hj
    simp only [resDepFail, List.mem_cons, List.not_mem_nil, or_false] at hj
    rcases hj with rfl | rfl
    · exact hinit
    · exact hfail 0 depFailMsg (by decide)
  · rcases hb with ⟨e, hmk, rfl⟩ | ⟨ws, q, hmk, hcn, hb2⟩
    · intro j hj
      simp only [resMkFail, List.mem_cons, List.not_mem_nil, or_false] at hj
      rcases hj with rfl | rfl | rfl
      · exact hinit
      · exact hproc 10
      · exact hfail 10 e (hm e hmk)
    · rcases hb2 with ⟨e, hwm, rfl⟩ | ⟨hwm, hb3⟩
      · intro j hj
        simp only [resWriteFail, List.mem_append, List.mem_singleton] at hj
        rcases hj with hj | rfl
        · exact hpre j hj
        · exact hfail 60 e (hw e hwm)
      · rcases hb3 with ⟨e, hen, rfl⟩ | ⟨hen, rfl⟩
        · intro j hj
          simp only [resEncFail, List.mem_append, List.mem_cons,
            List.not_mem_nil, or_false] at hj
          rcases hj with hj | rfl | rfl
          · exact hpre j hj
          · exact hproc 70
          · exact hfail 70 e (he e hen)
        · intro j hj
          simp only [resDone, List.mem_append, List.mem_cons,
            List.not_mem_nil, or_false] at hj
          rcases hj with hj | rfl | rfl | rfl
          · exact hpre j hj
          · exact hproc 70
          · exact hproc 90
          · exact hdone ws

/-- C3: per-clip failure isolation.  The final status of a run does not depend on the
per-clip probe, extraction or random outcomes at all; and whenever the dependency
check and workspace creation succeed and the loop bound is finite, the run reaches
the manifest stage (the progress-60 store) with exactly the successful clips —
possibly none — and completes whenever the manifest write and encode succeed. -/
theorem clip_failure_isolated (jobId : String) (data : RequestData) (env env' : Env)
    (h1 : env'.hasFFmpeg = env.hasFFmpeg) (h2 : env'.hasYtDlp = env.hasYtDlp)
    (h3 : env'.mkdtemp = env.mkdtemp) (h4 : env'.writeManifest = env.writeManifest)
    (h5 : env'.encode = env.encode) :
    ((runFinite jobId data env).map fun r => r.final.status) =
      ((runFinite jobId data env').map fun r => r.final.status) ∧
    (env.hasFFmpeg = true → env.hasYtDlp = true →
      ∀ ws, env.mkdtemp = Except.ok ws →
      ∀ q, clipsNeededJS data.montageLength data.interval = some q →
      ∃ res, runFinite jobId data env = some res ∧
        procJob 60 ∈ res.trace ∧ res.clips = loopClips env ws q ∧
        (env.writeManifest = Except.ok () → env.encode = Except.ok () →
          res.final.status = Status.completed)) := by
  constructor
  · unfold runFinite
    rw [h1, h2, h3, h4, h5]
    by_cases hb : (env.hasFFmpeg && env.hasYtDlp) = true
    · rw [hb]
      simp only [if_true]
      cases env.mkdtemp with
      | error e => rfl
      | ok ws =>
        cases clipsNeededJS data.montageLength data.interval with
        | none => rfl
        | some q =>
          cases env.writeManifest with
          | error e => simp [resWriteFail, failedJob]
          | ok u =>
            cases env.encode with
            | error e => simp [resEncFail, failedJob]
            | ok v => rfl
    · rw [Bool.not_eq_true] at hb
      rw [hb]
      simp only [Bool.false_eq_true, if_false]
  · intro hff hyd ws hmk q hcn
    have hb : (env.hasFFmpeg && env.hasYtDlp) = true := by simp [hff, hyd]
    cases hwm : env.writeManifest with
    | error e =>
      refine ⟨resWriteFail data env ws q e, ?_, ?_, rfl, ?_⟩
      · unfold runFinite
        rw [hb]
        simp only [if_true]
        rw [hmk, hcn, hwm]
      · simp [resWriteFail, preTrace]
      · intro hw' _
        exact Except.noConfusion hw'
    | ok u =>
      cases hen : env.encode with
      | error e =>
        refine ⟨resEncFail data env ws q e, ?_, ?_, rfl, ?_⟩
        · unfold runFinite
          rw [hb]
          simp only [if_true]
          rw [hmk, hcn, hwm, hen]
        · simp [resEncFail, preTrace]
        · intro _ he'
          exact Except.noConfusion he'
      | ok v =>
        refine ⟨resDone jobId data env ws q, ?_, ?_, rfl, fun _ _ => rfl⟩
        · unfold runFinite
          rw [hb]
          simp only [if_true]
          rw [hmk, hcn, hwm, hen]
        · simp [resDone, preTrace]

/-- C4: each uncaught failure — workspace creation, manifest write, or encoder
invocation — sends the job straight to failed, storing the thrown message verbatim
and leaving progress at its last stored value (10, 60, and 70 respectively). -/
theorem fatal_failure_sets_failed_verbatim (jobId : String) (data : RequestData)
    (env : Env) (hff : env.hasFFmpeg = true) (hyd : env.hasYtDlp = true) :
    (∀ e, env.mkdtemp = Except.error e →
      runFinite jobId data env = some (resMkFail e) ∧
      (resMkFail e).final = failedJob 10 e ∧ (failedJob 10 e).status = Status.failed ∧
      (failedJob 10 e).error = some e ∧ (failedJob 10 e).progress = 10 ∧
      (resMkFail e).trace = [initJob, procJob 10, failedJob 10 e]) ∧
    (∀ ws q e, env.mkdtemp = Except.ok ws →
      clipsNeededJS data.montageLength data.interval = some q →
      env.writeManifest = Except.error e →
      ∃ res, runFinite jobId data env = some res ∧ res.final = failedJob 60 e ∧
        (failedJob 60 e).status = Status.failed ∧ (failedJob 60 e).error = some e ∧
        (failedJob 60 e).progress = 60 ∧
        ∃ l, res.trace = l ++ [procJob 60, failedJob 60 e]) ∧
    (∀ ws q e, env.mkdtemp = Except.ok ws →
      clipsNeededJS data.montageLength data.interval = some q →
      env.writeManifest = Except.ok () → env.encode = Except.error e →
      ∃ res, runFinite jobId data env = some res ∧ res.final = failedJob 70 e ∧
        (failedJob 70 e).status = Status.failed ∧ (failedJob 70 e).error = some e ∧
        (failedJob 70 e).progress = 70 ∧
        ∃ l, res.trace = l ++ [procJob 70, failedJob 70 e]) := by
  have hb : (env.hasFFmpeg && env.hasYtDlp) = true := by simp [hff, hyd]
  refine ⟨?_, ?_, ?_⟩
  · intro e hmk
    refine ⟨?_, rfl, rfl, rfl, rfl, rfl⟩
    unfold runFinite
    rw [hb]
    simp only [if_true]
    rw [hmk]
  · intro ws q e hmk hcn hwm
    refine ⟨resWriteFail data env ws q e, ?_, rfl, rfl, rfl, rfl,
      [initJob, procJob 10, procJob 20] ++ loopSnaps env q, ?_⟩
    · unfold runFinite
      rw [hb]
      simp only [if_true]
      rw [hmk, hcn, hwm]
    · simp [resWriteFail, preTrace]
  · intro ws q e hmk hcn hwm hen
    refine ⟨resEncFail data env ws q e, ?_, rfl, rfl, rfl, rfl, preTrace env q, ?_⟩
    · unfold runFinite
      rw [hb]
      simp only [if_true]
      rw [hmk, hcn, hwm, hen]
    · simp [resEncFail]

/-- C6 counterexample: with maxStart = 10, no random draw in [0,1) ever yields the
start offset 10 — Math.floor(Math.random() * maxStart) can never produce maxStart
itself when maxStart is positive. -/
theorem maxStart_unreachable_cex :
    ¬ ∃ r : ℚ, 0 ≤ r ∧ r < 1 ∧ startTimeJS r 10 = 10 := by
  rintro ⟨r, h0, h1, he⟩
  unfold startTimeJS at he
  have hlt : r * 10 < 10 := by nlinarith
  have hfl : ⌊r * 10⌋ < (10 : ℤ) := Int.floor_lt.mpr (by exact_mod_cast hlt)
  rw [he] at hfl
  exact lt_irrefl _ hfl

/-- C6 (amended): for a nonnegative integer maxStart M and any draw r in [0,1), the
start offset floor(r·M) lies in [0, max(M-1, 0)] — M itself is unreachable when
M ≥ 1 — and every integer in [0, M-1] is attained by some draw; moreover this is
exactly the offset the pipeline passes to the extraction, with
maxStart = max(0, duration − interval). -/
theorem start_offset_range_amended (M : ℤ) (hM : 0 ≤ M) :
    (∀ r : ℚ, 0 ≤ r → r < 1 →
      0 ≤ startTimeJS r (M : ℚ) ∧ startTimeJS r (M : ℚ) ≤ max (M - 1) 0) ∧
    (∀ k : ℤ, 0 ≤ k → k < M →
      ∃ r : ℚ, 0 ≤ r ∧ r < 1 ∧ startTimeJS r (M : ℚ) = k) ∧
    (∀ (data : RequestData) (env : Env) (i : ℕ) (ds : String) (d : ℤ),
      env.probe i = Except.ok ds → parseDuration ds = some d →
      attemptStart data env i =
        some (startTimeJS (env.rand i) (max 0 ((d : ℚ) - data.interval)))) := by
  refine ⟨?_, ?_, ?_⟩
  · intro r hr0 hr1
    unfold startTimeJS
    have hM' : (0 : ℚ) ≤ (M : ℚ) := by exact_mod_cast hM
    constructor
    · exact Int.floor_nonneg.mpr (mul_nonneg hr0 hM')
    · rcases eq_or_lt_of_le hM with hM0 | hMpos
      · rw [← hM0]
        simp
      · have hMq : (0 : ℚ) < (M : ℚ) := by exact_mod_cast hMpos
        have hlt : r * (M : ℚ) < (M : ℚ) := by nlinarith
        have := Int.floor_lt.mpr (show r * (M : ℚ) < ((M : ℤ) : ℚ) by exact_mod_cast hlt)
        have h1 : ⌊r * (M : ℚ)⌋ ≤ M - 1 := by omega
        exact h1.trans (le_max_left _ _)
  · intro k hk0 hkM
    have hMpos : (0 : ℤ) < M := lt_of_le_of_lt hk0 hkM
    have hMq : (0 : ℚ) < (M : ℚ) := by exact_mod_cast hMpos
    refine ⟨(k : ℚ) / (M : ℚ), div_nonneg (by exact_mod_cast hk0) hMq.le, ?_, ?_⟩
    · exact (div_lt_one hMq).mpr (by exact_mod_cast hkM)
    · unfold startTimeJS
      rw [div_mul_cancel₀ _ (ne_of_gt hMq)]
      exact Int.floor_intCast k
  · intro data env i ds d hp hpd
    simp [attemptStart, hp, hpd]

/-- C10: with a positive interval the clip loop's bound is the finite
floor(montageLength/interval) and the guard admits exactly the indices below it;
with interval = 0 and positive montageLength the bound is non-finite, the guard
never fails, and the pipeline never terminates (modelled as runFinite = none). -/
theorem loop_termination_interval (data : RequestData) :
    (0 < data.interval →
      clipsNeededJS data.montageLength data.interval =
        some ⌊data.montageLength / data.interval⌋ ∧
      ∀ i : ℕ, loopGuard (clipsNeededJS data.montageLength data.interval) i = true ↔
        (i : ℤ) < ⌊data.montageLength / data.interval⌋) ∧
    (data.interval = 0 → 0 < data.montageLength →
      clipsNeededJS data.montageLength data.interval = none ∧
      (∀ i : ℕ, loopGuard (clipsNeededJS data.montageLength data.interval) i = true) ∧
      ∀ jobId env, env.hasFFmpeg = true → env.hasYtDlp = true →
        ∀ ws, env.mkdtemp = Except.ok ws → runFinite jobId data env = none) := by
  constructor
  · intro hi
    have hne : data.interval ≠ 0 := ne_of_gt hi
    have hcn : clipsNeededJS data.montageLength data.interval =
        some ⌊data.montageLength / data.interval⌋ := by
      unfold clipsNeededJS
      rw [if_neg hne]
    refine ⟨hcn, ?_⟩
    intro i
    rw [hcn]
    simp [loopGuard]
  · intro hz hml
    have hcn : clipsNeededJS data.montageLength data.interval = none := by
      unfold clipsNeededJS
      rw [if_pos hz, if_pos hml]
    refine ⟨hcn, ?_, ?_⟩
    · intro i
      rw [hcn]
      rfl
    · intro jobId env hff hyd ws hmk
      have hb : (env.hasFFmpeg && env.hasYtDlp) = true := by simp [hff, hyd]
      unfold runFinite
      rw [hb]
      simp only [if_true]
      rw [hmk, hcn]

/-- filterMap distributes over flatten. -/
theorem filterMap_flatten {α β : Type} (f : α → Option β) (L : List (List α)) :
    (L.flatten).filterMap f = (L.map (List.filterMap f)).flatten := by
  induction L with
  | nil => rfl
  | cons h t ih => simp [List.filterMap_append, ih]

/-- Flattening replicated singletons gives a replicated list. -/
theorem flatten_replicate_singleton {α : Type} (n : ℕ) (a : α) :
    (List.replicate n [a]).flatten = List.replicate n a := by
  induction n with
  | zero => rfl
  | succ k ih => simp [List.replicate_succ, ih]

/-- Each clip attempt issues exactly one probe, of the first request URL. -/
theorem probeUrls_attemptCalls (data : RequestData) (env : Env) (ws : String) (i : ℕ) :
    probeUrls (attemptCalls data env ws i) = [data.videoUrls.headI] := by
  unfold probeUrls attemptCalls
  cases env.probe i <;> simp

/-- Any extraction a clip attempt issues is of the first request URL. -/
theorem extractUrls_attemptCalls (data : RequestData) (env : Env) (ws : String) (i : ℕ) :
    ∀ u ∈ extractUrls (attemptCalls data env ws i), u = data.videoUrls.headI := by
  unfold extractUrls attemptCalls
  cases env.probe i <;> simp

/-- The loop probes the first request URL exactly once per needed clip. -/
theorem probeUrls_loopCalls (data : RequestData) (env : Env) (ws : String) (q : ℤ) :
    probeUrls (loopCalls data env ws q) =
      List.replicate q.toNat data.videoUrls.headI := by
  unfold loopCalls
  rw [show probeUrls (((List.range q.toNat).map (attemptCalls data env ws)).flatten) =
      ((((List.range q.toNat).map (attemptCalls data env ws)).map
        (List.filterMap fun c => match c with | Call.probe u => some u | _ => none)).flatten)
    from filterMap_flatten _ _]
  rw [List.map_map]
  have hc : ∀ i ∈ List.range q.toNat,
      (List.filterMap (fun c => match c with | Call.probe u => some u | _ => none) ∘
        attemptCalls data env ws) i = [data.videoUrls.headI] := by
    intro i _
    exact probeUrls_attemptCalls data env ws i
  rw [List.map_congr_left hc]
  have := flatten_replicate_singleton q.toNat data.videoUrls.headI
  rw [← this]
  congr 1
  rw [List.map_const']
  rw [List.length_range]

/-- Every extraction the loop issues is of the first request URL. -/
theorem extractUrls_loopCalls (data : RequestData) (env : Env) (ws : String) (q : ℤ) :
    ∀ u ∈ extractUrls (loopCalls data env ws q), u = data.videoUrls.headI := by
  intro u hu
  unfold loopCalls at hu
  rw [show extractUrls (((List.range q.toNat).map (attemptCalls data env ws)).flatten) =
      ((((List.range q.toNat).map (attemptCalls data env ws)).map
        (List.filterMap fun c =>
          match c with | Call.extract v _ _ _ => some v | _ => none)).flatten)
    from filterMap_flatten _ _] at hu
  rcases List.mem_flatten.mp hu with ⟨l, hl, hul⟩
  rcases List.mem_map.mp hl with ⟨li, hli, rfl⟩
  rcases List.mem_map.mp hli with ⟨i, _, rfl⟩
  exact extractUrls_attemptCalls data env ws i u hul

/-- probeUrls distributes over call-list append. -/
theorem probeUrls_append (a b : List Call) :
    probeUrls (a ++ b) = probeUrls a ++ probeUrls b :=
  List.filterMap_append a b _

/-- extractUrls distributes over call-list append. -/
theorem extractUrls_append (a b : List Call) :
    extractUrls (a ++ b) = extractUrls a ++ extractUrls b :=
  List.filterMap_append a b _

/-- The encoder call contributes no probe URL. -/
theorem probeUrls_encodeCall (data : RequestData) (ws : String) :
    probeUrls [encodeCall data ws] = [] := rfl

/-- The encoder call contributes no extraction URL. -/
theorem extractUrls_encodeCall (data : RequestData) (ws : String) :
    extractUrls [encodeCall data ws] = [] := rfl

/-- C7: for an accepted job with a positive interval and nonnegative montage length
whose dependency check and workspace creation succeed, the loop attempts exactly
floor(montageLength/interval) clips — one probe each — and every probe and every
extraction uses the first URL of the request, whatever else videoUrls contains. -/
theorem clip_count_and_first_url (jobId : String) (data : RequestData) (env : Env)
    (res : RunResult) (hi : 0 < data.interval) (hml : 0 ≤ data.montageLength)
    (hff : env.hasFFmpeg = true) (hyd : env.hasYtDlp = true)
    (hok : ∃ ws, env.mkdtemp = Except.ok ws)
    (h : runFinite jobId data env = some res) :
    probeUrls res.calls =
      List.replicate (⌊data.montageLength / data.interval⌋).toNat
        data.videoUrls.headI ∧
    ((⌊data.montageLength / data.interval⌋).toNat : ℤ) =
      ⌊data.montageLength / data.interval⌋ ∧
    ∀ u ∈ extractUrls res.calls, u = data.videoUrls.headI := by
  obtain ⟨ws0, hmk0⟩ := hok
  have hfl : (0 : ℤ) ≤ ⌊data.montageLength / data.interval⌋ :=
    Int.floor_nonneg.mpr (div_nonneg hml hi.le)
  have htn : ((⌊data.montageLength / data.interval⌋).toNat : ℤ) =
      ⌊data.montageLength / data.interval⌋ := Int.toNat_of_nonneg hfl
  have hcn : clipsNeededJS data.montageLength data.interval =
      some ⌊data.montageLength / data.interval⌋ := by
    unfold clipsNeededJS
    rw [if_neg (ne_of_gt hi)]
  have hpe : probeUrls [encodeCall data ws0] = [] := rfl
  rcases runFinite_cases h with ⟨hb, _⟩ | ⟨_, hb⟩
  · rw [hff, hyd] at hb
    exact absurd hb (by simp)
  · rcases hb with ⟨e, hmk, _⟩ | ⟨ws, q, hmk, hcn', hb2⟩
    · rw [hmk0] at hmk
      exact absurd hmk (fun hc => Except.noConfusion hc)
    · have hq : q = ⌊data.montageLength / data.interval⌋ := by
        rw [hcn'] at hcn
        exact Option.some.inj hcn
      subst hq
      have hwsq : ws = ws0 := by
        rw [hmk0] at hmk
        exact (Except.ok.inj hmk).symm
      subst hwsq
      rcases hb2 with ⟨e, hwm, rfl⟩ | ⟨hwm, hb3⟩
      · exact ⟨probeUrls_loopCalls data env ws _, htn, extractUrls_loopCalls data env ws _⟩
      · rcases hb3 with ⟨e, hen, rfl⟩ | ⟨hen, rfl⟩
        · refine ⟨?_, htn, ?_⟩
          · show probeUrls
                (loopCalls data env ws ⌊data.montageLength / data.interval⌋ ++
                  [encodeCall data ws]) = _
            rw [probeUrls_append, probeUrls_encodeCall, List.append_nil]
            exact probeUrls_loopCalls data env ws _
          · intro u hu
            have hu' : u ∈ extractUrls
                (loopCalls data env ws ⌊data.montageLength / data.interval⌋ ++
                  [encodeCall data ws]) := hu
            rw [extractUrls_append, extractUrls_encodeCall, List.append_nil] at hu'
            exact extractUrls_loopCalls data env ws _ u hu'
        · refine ⟨?_, htn, ?_⟩
          · show probeUrls
                (loopCalls data env ws ⌊data.montageLength / data.interval⌋ ++
                  [encodeCall data ws]) = _
            rw [probeUrls_append, probeUrls_encodeCall, List.append_nil]
            exact probeUrls_loopCalls data env ws _
          · intro u hu
            have hu' : u ∈ extractUrls
                (loopCalls data env ws ⌊data.montageLength / data.interval⌋ ++
                  [encodeCall data ws]) := hu
            rw [extractUrls_append, extractUrls_encodeCall, List.append_nil] at hu'
            exact extractUrls_loopCalls data env ws _ u hu'

/-- C8: parseDuration combines an H:MM:SS split as hours, minutes, seconds, an MM:SS
split as minutes, seconds, and otherwise falls back to parseInt of the whole string;
in particular "1:02:03" parses to 3723, "02:03" to 123, and "45" to 45. -/
theorem parseDuration_forms :
    (∀ (s : String) (a b c : List Char) (h m sec : ℕ),
        splitOnChar ':' s.toList = [a, b, c] →
        jsNumberChars a = some h → jsNumberChars b = some m → jsNumberChars c = some sec →
        parseDuration s = some ((h : ℤ) * 3600 + (m : ℤ) * 60 + (sec : ℤ))) ∧
    (∀ (s : String) (a b : List Char) (m sec : ℕ),
        splitOnChar ':' s.toList = [a, b] →
        jsNumberChars a = some m → jsNumberChars b = some sec →
        parseDuration s = some ((m : ℤ) * 60 + (sec : ℤ))) ∧
    (∀ (s : String) (a : List Char) (v : ℕ),
        splitOnChar ':' s.toList = [a] → jsParseIntChars s.toList = some v →
        parseDuration s = some (v : ℤ)) ∧
    parseDuration "1:02:03" = some 3723 ∧
    parseDuration "02:03" = some 123 ∧
    parseDuration "45" = some 45 := by
  refine ⟨?_, ?_, ?_, by decide, by decide, by decide⟩
  · intro s a b c h m sec hsplit ha hb hc
    unfold parseDuration
    rw [hsplit]
    simp [ha, hb, hc]
  · intro s a b m sec hsplit ha hb
    unfold parseDuration
    rw [hsplit]
    simp [ha, hb]
  · intro s a v hsplit hv
    unfold parseDuration
    rw [hsplit]
    simp only [List.map]
    rcases jsNumberChars a with _ | n
    · exact hv ▸ rfl
    · exact hv ▸ rfl

/-- C9 counterexample: the lookup resolutionMap[data.resolution] traverses the
prototype chain, so the client-suppliable unrecognized tag "constructor" finds the
inherited, truthy Object.prototype member and the || fallback never fires — that
tag is not sent to "1280x720". -/
theorem resolution_default_unreachable_cex :
    targetResolutionJS (some "constructor") = JsValue.protoMember "constructor" ∧
    targetResolutionJS (some "constructor") ≠ JsValue.str "1280x720" ∧
    jsTruthy (targetResolutionJS (some "constructor")) = true := by
  refine ⟨?_, ?_, ?_⟩ <;> decide

/-- C9 (amended): the mapping sends 480p, 720p, 1080p to their pixel dimensions, an
absent tag to 1280x720, and every unrecognized tag to 1280x720 unless the tag names
an inherited Object.prototype member (such as "constructor" or "toString"), in which
case the lookup yields that truthy non-string member and the fallback does not
fire. -/
theorem resolution_mapping_amended :
    targetResolutionJS (some "480p") = JsValue.str "854x480" ∧
    targetResolutionJS (some "720p") = JsValue.str "1280x720" ∧
    targetResolutionJS (some "1080p") = JsValue.str "1920x1080" ∧
    targetResolutionJS none = JsValue.str "1280x720" ∧
    (∀ t : String, t ≠ "480p" → t ≠ "720p" → t ≠ "1080p" →
      t ∉ objectProtoProps → targetResolutionJS (some t) = JsValue.str "1280x720") ∧
    ∀ t ∈ objectProtoProps, targetResolutionJS (some t) = JsValue.protoMember t := by
  refine ⟨by decide, by decide, by decide, by decide, ?_, by decide⟩
  intro t h1 h2 h3 h4
  simp only [targetResolutionJS, resolutionLookupJS, resolutionMap,
    if_neg h1, if_neg h2, if_neg h3, if_neg h4]
  rfl

/-- Concrete request: one URL, interval 30, montage length 95, resolution 720p. -/
def cData : RequestData :=
  { videoUrls := ["https://example/video"], interval := 30, montageLength := 95,
    resolution := some "720p" }

/-- Concrete oracle in which every external effect succeeds: both tools present, the
workspace is created, every probe reports 10:00, every random draw is 0, every
extraction succeeds, and the manifest write and encode succeed. -/
def cEnvOk : Env :=
  { hasFFmpeg := true, hasYtDlp := true, mkdtemp := Except.ok "/tmp/montage-x",
    probe := fun _ => Except.ok "10:00", rand := fun _ => 0,
    extract := fun _ => Except.ok (), writeManifest := Except.ok (),
    encode := Except.ok () }

/-- Oracle with ffmpeg missing. -/
def cEnvNoDeps : Env := { cEnvOk with hasFFmpeg := false }

/-- Oracle in which every clip probe fails. -/
def cEnvProbeFail : Env := { cEnvOk with probe := fun _ => Except.error "probe failed" }

/-- Oracle in which workspace creation throws. -/
def cEnvMkFail : Env := { cEnvOk with mkdtemp := Except.error "EACCES" }

/-- Oracle in which the manifest write throws. -/
def cEnvWriteFail : Env := { cEnvOk with writeManifest := Except.error "ENOSPC" }

/-- Oracle in which the encoder fails. -/
def cEnvEncFail : Env := { cEnvOk with encode := Except.error "Command failed: ffmpeg" }

/-- Concrete request with interval 0 and positive montage length. -/
def cDataZero : RequestData := { cData with interval := 0, montageLength := 5 }

/-- The concrete clip count: floor(95/30) = 3. -/
theorem cFloor : ⌊(95 : ℚ) / 30⌋ = 3 := by
  rw [Int.floor_eq_iff]
  constructor <;> norm_num

/-- The all-success run reduces to the successful terminal shape. -/
theorem cRun_eq : runFinite "J" cData cEnvOk =
    some (resDone "J" cData cEnvOk "/tmp/montage-x" ⌊(95 : ℚ) / 30⌋) := rfl

/-- The all-success run with the clip count evaluated. -/
theorem cRun_eq3 : runFinite "J" cData cEnvOk =
    some (resDone "J" cData cEnvOk "/tmp/montage-x" 3) := by
  rw [cRun_eq, cFloor]

/-- The all-probes-fail run also reaches the successful terminal shape. -/
theorem cRunProbeFail_eq : runFinite "J" cData cEnvProbeFail =
    some (resDone "J" cData cEnvProbeFail "/tmp/montage-x" ⌊(95 : ℚ) / 30⌋) := rfl

/-- The all-probes-fail run with the clip count evaluated. -/
theorem cRunProbeFail_eq3 : runFinite "J" cData cEnvProbeFail =
    some (resDone "J" cData cEnvProbeFail "/tmp/montage-x" 3) := by
  rw [cRunProbeFail_eq, cFloor]

/-- C1 counterexample: on the all-success run of the 95/30 request, the trace stores
the progress value 100/3 after the second clip — a value that is not an integer, so
progress is not an integer percentage at every update. -/
theorem progress_not_integer_cex :
    ∃ res, runFinite "J" cData cEnvOk = some res ∧
      ∃ j ∈ res.trace, j.progress = 100 / 3 ∧ ¬ ∃ z : ℤ, j.progress = (z : ℚ) := by
  refine ⟨resDone "J" cData cEnvOk "/tmp/montage-x" 3, cRun_eq3,
    procJob (20 + ((1 : ℕ) : ℚ) / ((3 : ℤ) : ℚ) * 40), ?_, ?_, ?_⟩
  · have h1 : procJob (20 + ((1 : ℕ) : ℚ) / ((3 : ℤ) : ℚ) * 40) ∈ loopSnaps cEnvOk 3 :=
      mem_loopSnaps.mpr ⟨1, by decide, by decide, rfl⟩
    simp only [resDone, preTrace, List.mem_append, List.mem_cons]
    tauto
  · show (20 + ((1 : ℕ) : ℚ) / ((3 : ℤ) : ℚ) * 40) = 100 / 3
    norm_num
  · rintro ⟨z, hz⟩
    have h1 : (20 + ((1 : ℕ) : ℚ) / ((3 : ℤ) : ℚ) * 40) = (z : ℚ) := hz
    have h2 : (20 + ((1 : ℕ) : ℚ) / ((3 : ℤ) : ℚ) * 40) = 100 / 3 := by norm_num
    rw [h2] at h1
    have h3 : (100 : ℚ) = 3 * (z : ℚ) := by
      field_simp at h1
      linarith
    have h4 : (100 : ℤ) = 3 * z := by exact_mod_cast h3
    omega

/-- Witness for C1 on the concrete all-success run. -/
theorem progress_monotone_bounds_completed_witness :
    (((resDone "J" cData cEnvOk "/tmp/montage-x" 3).trace.map Job.progress).Sorted
      (· ≤ ·)) ∧
    ∀ j ∈ (resDone "J" cData cEnvOk "/tmp/montage-x" 3).trace,
      0 ≤ j.progress ∧ j.progress ≤ 100 ∧
        (j.progress = 100 ↔ j.status = Status.completed) :=
  progress_monotone_bounds_completed "J" cData cEnvOk _ cRun_eq3

/-- The encoder-failure run reduces to the encode-failed terminal shape. -/
theorem cRunEncFail_eq : runFinite "J" cData cEnvEncFail =
    some (resEncFail cData cEnvEncFail "/tmp/montage-x" ⌊(95 : ℚ) / 30⌋
      "Command failed: ffmpeg") := rfl

/-- The encoder-failure run with the clip count evaluated. -/
theorem cRunEncFail_eq3 : runFinite "J" cData cEnvEncFail =
    some (resEncFail cData cEnvEncFail "/tmp/montage-x" 3 "Command failed: ffmpeg") := by
  rw [cRunEncFail_eq, cFloor]

/-- Witness for C2 at two concrete stored states: the terminal state of the
encoder-failure run (non-empty error iff failed) and the terminal state of the
all-success run (non-empty output path iff completed). -/
theorem error_outputFile_iff_status_witness :
    (((∃ s, (failedJob (70 : ℚ) "Command failed: ffmpeg").error = some s ∧ s ≠ "") ↔
        (failedJob (70 : ℚ) "Command failed: ffmpeg").status = Status.failed) ∧
      ((∃ f, (failedJob (70 : ℚ) "Command failed: ffmpeg").outputFile = some f ∧
          f ≠ "") ↔
        (failedJob (70 : ℚ) "Command failed: ffmpeg").status = Status.completed)) ∧
    ((∃ s, (doneJob "J" "/tmp/montage-x" cData).error = some s ∧ s ≠ "") ↔
      (doneJob "J" "/tmp/montage-x" cData).status = Status.failed) ∧
    ((∃ f, (doneJob "J" "/tmp/montage-x" cData).outputFile = some f ∧ f ≠ "") ↔
      (doneJob "J" "/tmp/montage-x" cData).status = Status.completed) := by
  constructor
  · exact error_outputFile_iff_status "J" cData cEnvEncFail _ cRunEncFail_eq3
      (fun _ h => Except.noConfusion h) (fun _ h => Except.noConfusion h)
      (fun e h => by
        have he : "Command failed: ffmpeg" = e := Except.error.inj h
        rw [← he]
        decide)
      (failedJob 70 "Command failed: ffmpeg") (by simp [resEncFail, preTrace])
  · exact error_outputFile_iff_status "J" cData cEnvOk _ cRun_eq3
      (fun _ h => Except.noConfusion h) (fun _ h => Except.noConfusion h)
      (fun _ h => Except.noConfusion h)
      (doneJob "J" "/tmp/montage-x" cData) (by simp [resDone, preTrace])

/-- Witness for C3: the all-probes-fail oracle and the all-success oracle, which
agree outside the clip loop, give the same final status; moreover the run in which
every clip fails still completes with an empty clip list. -/
theorem clip_failure_isolated_witness :
    (((runFinite "J" cData cEnvProbeFail).map fun r => r.final.status) =
      ((runFinite "J" cData cEnvOk).map fun r => r.final.status)) ∧
    runFinite "J" cData cEnvProbeFail =
      some (resDone "J" cData cEnvProbeFail "/tmp/montage-x" 3) ∧
    (resDone "J" cData cEnvProbeFail "/tmp/montage-x" 3).clips = [] ∧
    (resDone "J" cData cEnvProbeFail "/tmp/montage-x" 3).final.status =
      Status.completed :=
  ⟨(clip_failure_isolated "J" cData cEnvProbeFail cEnvOk rfl rfl rfl rfl rfl).1,
    cRunProbeFail_eq3, by decide, rfl⟩

/-- Witness for C4 at the three concrete failing oracles: workspace creation,
manifest write, and encode failures each produce the failed terminal state with the
thrown message and the progress value last stored before the failure. -/
theorem fatal_failure_sets_failed_verbatim_witness :
    (runFinite "J" cData cEnvMkFail = some (resMkFail "EACCES") ∧
      (resMkFail "EACCES").final = failedJob 10 "EACCES" ∧
      (failedJob (10 : ℚ) "EACCES").status = Status.failed ∧
      (failedJob (10 : ℚ) "EACCES").error = some "EACCES" ∧
      (failedJob (10 : ℚ) "EACCES").progress = 10 ∧
      (resMkFail "EACCES").trace = [initJob, procJob 10, failedJob 10 "EACCES"]) ∧
    (∃ res, runFinite "J" cData cEnvWriteFail = some res ∧
      res.final = failedJob 60 "ENOSPC" ∧
      (failedJob (60 : ℚ) "ENOSPC").status = Status.failed ∧
      (failedJob (60 : ℚ) "ENOSPC").error = some "ENOSPC" ∧
      (failedJob (60 : ℚ) "ENOSPC").progress = 60 ∧
      ∃ l, res.trace = l ++ [procJob 60, failedJob 60 "ENOSPC"]) ∧
    ∃ res, runFinite "J" cData cEnvEncFail = some res ∧
      res.final = failedJob 70 "Command failed: ffmpeg" ∧
      (failedJob (70 : ℚ) "Command failed: ffmpeg").status = Status.failed ∧
      (failedJob (70 : ℚ) "Command failed: ffmpeg").error =
        some "Command failed: ffmpeg" ∧
      (failedJob (70 : ℚ) "Command failed: ffmpeg").progress = 70 ∧
      ∃ l, res.trace = l ++ [procJob 70, failedJob 70 "Command failed: ffmpeg"] :=
  ⟨(fatal_failure_sets_failed_verbatim "J" cData cEnvMkFail rfl rfl).1 "EACCES" rfl,
    (fatal_failure_sets_failed_verbatim "J" cData cEnvWriteFail rfl rfl).2.1
      "/tmp/montage-x" ⌊(95 : ℚ) / 30⌋ "ENOSPC" rfl rfl rfl,
    (fatal_failure_sets_failed_verbatim "J" cData cEnvEncFail rfl rfl).2.2
      "/tmp/montage-x" ⌊(95 : ℚ) / 30⌋ "Command failed: ffmpeg" rfl rfl rfl rfl⟩

/-- Witness for C5 at the concrete missing-ffmpeg oracle. -/
theorem missing_deps_fail_from_queued_witness :
    runFinite "J" cData cEnvNoDeps = some resDepFail ∧
    resDepFail.final.status = Status.failed ∧
    resDepFail.final.error = some depFailMsg ∧
    resDepFail.final.progress = 0 ∧
    resDepFail.trace = [initJob, depFailedJob] ∧
    initJob.status = Status.queued ∧
    ∀ j ∈ resDepFail.trace, j.status ≠ Status.processing :=
  missing_deps_fail_from_queued "J" cData cEnvNoDeps (Or.inl rfl)

/-- Witness for C6 (amended) at maxStart = 10. -/
theorem start_offset_range_amended_witness :
    (∀ r : ℚ, 0 ≤ r → r < 1 →
      0 ≤ startTimeJS r ((10 : ℤ) : ℚ) ∧
        startTimeJS r ((10 : ℤ) : ℚ) ≤ max ((10 : ℤ) - 1) 0) ∧
    (∀ k : ℤ, 0 ≤ k → k < (10 : ℤ) →
      ∃ r : ℚ, 0 ≤ r ∧ r < 1 ∧ startTimeJS r ((10 : ℤ) : ℚ) = k) ∧
    (∀ (data : RequestData) (env : Env) (i : ℕ) (ds : String) (d : ℤ),
      env.probe i = Except.ok ds → parseDuration ds = some d →
      attemptStart data env i =
        some (startTimeJS (env.rand i) (max 0 ((d : ℚ) - data.interval)))) :=
  start_offset_range_amended 10 (by norm_num)

/-- Witness for C7 on the concrete all-success run: three probes of the single URL,
and floor(95/30) is indeed 3. -/
theorem clip_count_and_first_url_witness :
    (probeUrls (resDone "J" cData cEnvOk "/tmp/montage-x" 3).calls =
      List.replicate (⌊(95 : ℚ) / 30⌋).toNat cData.videoUrls.headI ∧
    ((⌊(95 : ℚ) / 30⌋).toNat : ℤ) = ⌊(95 : ℚ) / 30⌋ ∧
    ∀ u ∈ extractUrls (resDone "J" cData cEnvOk "/tmp/montage-x" 3).calls,
      u = cData.videoUrls.headI) ∧
    ⌊(95 : ℚ) / 30⌋ = 3 :=
  ⟨clip_count_and_first_url "J" cData cEnvOk _ (by decide) (by decide) rfl rfl
      ⟨"/tmp/montage-x", rfl⟩ cRun_eq3, cFloor⟩

/-- Witness for C8: the three-part rule applied at "1:02:03". -/
theorem parseDuration_forms_witness :
    parseDuration "1:02:03" = some ((1 : ℤ) * 3600 + (2 : ℤ) * 60 + (3 : ℤ)) :=
  parseDuration_forms.1 "1:02:03" [Char.ofNat 49] [Char.ofNat 48, Char.ofNat 50]
    [Char.ofNat 48, Char.ofNat 51] 1 2 3 (by decide) (by decide) (by decide) (by decide)

/-- Witness for C9 (amended): the unrecognized non-prototype tag "4K" falls back to
1280x720, while the prototype-member tag "toString" yields the inherited member. -/
theorem resolution_mapping_amended_witness :
    targetResolutionJS (some "4K") = JsValue.str "1280x720" ∧
    targetResolutionJS (some "toString") = JsValue.protoMember "toString" :=
  ⟨resolution_mapping_amended.2.2.2.2.1 "4K"
      (by decide) (by decide) (by decide) (by decide),
    resolution_mapping_amended.2.2.2.2.2 "toString" (by decide)⟩

/-- Witness for C10: the 95/30 request has the finite bound floor(95/30); the 5/0
request has a non-finite bound, a guard that never fails, and a run that never
terminates. -/
theorem loop_termination_interval_witness :
    clipsNeededJS cData.montageLength cData.interval = some ⌊(95 : ℚ) / 30⌋ ∧
    clipsNeededJS cDataZero.montageLength cDataZero.interval = none ∧
    loopGuard (clipsNeededJS cDataZero.montageLength cDataZero.interval) 1000 = true ∧
    runFinite "J" cDataZero cEnvOk = none :=
  ⟨((loop_termination_interval cData).1 (by decide)).1,
    ((loop_termination_interval cDataZero).2 rfl (by decide)).1,
    ((loop_termination_interval cDataZero).2 rfl (by decide)).2.1 1000,
    ((loop_termination_interval cDataZero).2 rfl (by decide)).2.2 "J" cEnvOk rfl rfl
      "/tmp/montage-x" rfl⟩

end Montage
